import Mathlib

/-!
Shallow embedding of the per-connection client actor of an IRC-style chat
server (Go package `irc`, file containing `Client`, its pumps, timers and
lifecycle operations).  Concurrency is embedded as explicit state passing:
a `World` value holds every client's state, the channel member sets, the
nickname registry, the server-wide command intake queue and an append-only
event trace recording the side effects in the order the code performs them.
Each Go method becomes a function `World → ... → World`.
-/

/-- Client identifiers (Go: `*Client` pointers). -/
abbrev ClientId := Nat

/-- Channel identifiers (Go: `*Channel` pointers). -/
abbrev ChannelId := Nat

/-- Registration phase.  The spec requires at least the two states
*Registering* and *Normal*; the initial phase comes from the external
server configuration. -/
inductive Phase where
  | Registering
  | Normal
deriving DecidableEq, Repr

/-- The three timers of a client, named. -/
inductive TimerId where
  | login
  | idle
  | quit
deriving DecidableEq, Repr

/-- Outbound reply lines.  The Go code treats formatted reply text as opaque
strings produced by external formatting functions (`RplError`, `RplQuit`,
`RplNick`, `RplPing`, `ErrNeedMoreParams`) plus the end-of-stream sentinel
`EOF`; we embed the lines as a tagged type whose constructors record the
arguments the formatting functions capture at render time. -/
inductive Line where
  /-- The magic end-of-stream sentinel written by `Quit` and recognised by
  the write pump. -/
  | eof
  /-- `RplError(message)`. -/
  | rplError (msg : String)
  /-- `RplQuit(client, message)`: renders the quitting client's user-host
  identity at call time, plus the reason. -/
  | rplQuit (source : String) (msg : String)
  /-- `RplNick(client, newNick)`: renders the client's user-host identity at
  call time (before the nick mutation), plus the new nickname. -/
  | rplNick (source : String) (newNick : String)
  /-- `RplPing(client)`: the keepalive ping sent when the idle timer fires. -/
  | rplPing (target : String)
  /-- `ErrNeedMoreParams(verb)`: protocol error naming the offending verb. -/
  | needMoreParams (verb : String)
deriving DecidableEq, Repr

/-- Command kinds flowing through the Command Intake Queue.  `QuitCommand`
carries its reason; all other parsed commands are opaque to this core. -/
inductive CmdKind where
  | quitCmd (msg : String)
  | otherCmd (tag : Nat)
deriving DecidableEq, Repr

/-- A command value: a kind plus the originating client attached by
`SetClient` (Go: the `BaseCommand` client field, `none` until set). -/
structure Command where
  kind : CmdKind
  client : Option ClientId
deriving DecidableEq, Repr

/-- One recorded side effect.  The trace lets us state the order in which
operations perform their effects. -/
inductive Event where
  /-- A line was enqueued to client `c`'s reply queue. -/
  | reply (c : ClientId) (l : Line)
  /-- `hasQuit` was set on client `c`. -/
  | setHasQuit (c : ClientId)
  /-- `Stop()` was called on a non-nil timer of client `c`. -/
  | stopTimer (c : ClientId) (t : TimerId)
  /-- `Stop()` was called on a nil timer pointer: a nil dereference. -/
  | nilDeref (c : ClientId) (t : TimerId)
  /-- `channel.Quit(client)`: channel `ch` was notified of `c`'s departure. -/
  | chanQuit (ch : ChannelId) (c : ClientId)
  /-- `server.clients.Remove(client)`. -/
  | regRemove (c : ClientId)
  /-- `server.clients.Add(client)`. -/
  | regAdd (c : ClientId)
  /-- `client.nick = n`. -/
  | setNick (c : ClientId) (n : String)
  /-- A command was enqueued to the Command Intake Queue. -/
  | enqueueCmd (cmd : Command)
  /-- A hostname lookup request was enqueued to the server. -/
  | enqueueHostname (c : ClientId) (ip : String)
deriving DecidableEq, Repr

/-- State of one client (the fields of Go's `Client` struct that the
lifecycle operations read or write; timestamps are omitted as no operation
modelled here observes them).  A timer field is `none` while the Go pointer
is nil; `some true` is an armed timer, `some false` a stopped/fired one. -/
structure ClientState where
  nick : String
  username : String
  hostname : String
  hasQuit : Bool
  phase : Phase
  channels : List ChannelId
  loginTimer : Option Bool
  idleTimer : Option Bool
  quitTimer : Option Bool
  /-- The client's reply queue contents, in enqueue (FIFO) order. -/
  replies : List Line
deriving DecidableEq, Repr

/-- `Client.Nick()`: the nickname, or `*` while unset. -/
def ClientState.NickR (c : ClientState) : String :=
  if c.nick ≠ "" then c.nick else "*"

/-- `Client.UserHost()`: `nick!user@host`, with `*` for a missing
username. -/
def ClientState.UserHost (c : ClientState) : String :=
  c.NickR ++ "!" ++ (if c.username ≠ "" then c.username else "*") ++ "@" ++ c.hostname

/-- The whole system state threaded through every operation. -/
structure World where
  clients : ClientId → ClientState
  /-- Member sets of the channels (`channel.members`), as duplicate-free
  lists. -/
  members : ChannelId → List ClientId
  /-- The nickname registry `server.clients`: entries keyed by nickname.
  Modelled from the spec: the registry collaborator (`add(client)`,
  `remove(client)`, keyed by current nickname) is outside this file's
  source; we keep a list of (key, client) entries so that duplicate-key
  windows are representable. -/
  registry : List (String × ClientId)
  /-- The Command Intake Queue `server.commands`, in enqueue order. -/
  commands : List Command
  /-- The server-wide hostname-lookup intake `server.hostnames`. -/
  hostnames : List (ClientId × String)
  /-- Append-only trace of side effects, oldest first. -/
  events : List Event

/-- Update one client's state. -/
def World.upd (w : World) (c : ClientId) (f : ClientState → ClientState) : World :=
  { w with clients := fun i => if i = c then f (w.clients i) else w.clients i }

/-- Append one event to the trace. -/
def World.log (w : World) (e : Event) : World :=
  { w with events := w.events ++ [e] }

/-- `ClientSet.Add`: set insertion into a duplicate-free list (Go sets are
maps; we fix insertion order as the iteration order). -/
def ClientSet.add (s : List ClientId) (x : ClientId) : List ClientId :=
  if x ∈ s then s else s ++ [x]

/-- `Client.Friends()`: the client itself plus every member of every channel
the client belongs to, de-duplicated. -/
def Friends (w : World) (c : ClientId) : List ClientId :=
  (w.clients c).channels.foldl
    (fun acc ch => (w.members ch).foldl ClientSet.add acc)
    (ClientSet.add [] c)

/-- `Client.Reply(reply)`: enqueue one line if and only if `hasQuit` is
false; otherwise a no-op. -/
def Reply (w : World) (c : ClientId) (l : Line) : World :=
  if (w.clients c).hasQuit then w
  else (w.upd c (fun st => { st with replies := st.replies ++ [l] })).log (.reply c l)

/-- Broadcast a line to a list of clients by calling `Reply` on each. -/
def broadcast (w : World) (cs : List ClientId) (l : Line) : World :=
  cs.foldl (fun acc f => Reply acc f l) w

/-- `timer.Stop()` on a timer known to be non-nil. -/
def stopTimer (t : Option Bool) : Option Bool :=
  match t with
  | none => none
  | some _ => some false

/-- `server.clients.Remove(client)`: drop the registry entries under the
client's current nickname key.  Modelled from the spec: the registry
collaborator is external; removal is keyed by current nickname. -/
def registryRemove (w : World) (c : ClientId) : World :=
  ({ w with registry := w.registry.filter (fun e => e.1 ≠ ((w.clients c).NickR)) }).log
    (.regRemove c)

/-- `server.clients.Add(client)`: append a registry entry under the client's
current nickname key.  Modelled from the spec: the registry collaborator is
external; insertion is keyed by current nickname. -/
def registryAdd (w : World) (c : ClientId) : World :=
  ({ w with registry := w.registry ++ [(((w.clients c).NickR), c)] }).log (.regAdd c)

/-- `client.loginTimer.Stop()`: the unguarded stop in `destroy` (and in
`Register`) — a nil pointer here is a nil dereference, recorded as an
event. -/
def stopLoginU (w : World) (c : ClientId) : World :=
  match (w.clients c).loginTimer with
  | none => w.log (.nilDeref c .login)
  | some _ =>
      (w.upd c (fun st => { st with loginTimer := stopTimer st.loginTimer })).log
        (.stopTimer c .login)

/-- `if client.idleTimer != nil \x7b client.idleTimer.Stop() \x7d`: the
nil-guarded idle-timer stop. -/
def stopIdleG (w : World) (c : ClientId) : World :=
  match (w.clients c).idleTimer with
  | none => w
  | some _ =>
      (w.upd c (fun st => { st with idleTimer := stopTimer st.idleTimer })).log
        (.stopTimer c .idle)

/-- `if client.quitTimer != nil \x7b client.quitTimer.Stop() \x7d`: the
nil-guarded quit-timer stop. -/
def stopQuitG (w : World) (c : ClientId) : World :=
  match (w.clients c).quitTimer with
  | none => w
  | some _ =>
      (w.upd c (fun st => { st with quitTimer := stopTimer st.quitTimer })).log
        (.stopTimer c .quit)

/-- `Client.destroy()`: stop the login timer (unguarded), stop the idle and
quit timers when non-nil, notify every joined channel of the departure,
remove the client from the registry. -/
def destroy (w : World) (c : ClientId) : World :=
  let w1 := stopLoginU w c
  let w2 := stopIdleG w1 c
  let w3 := stopQuitG w2 c
  let w4 := (w3.clients c).channels.foldl (fun acc ch => acc.log (.chanQuit ch c)) w3
  registryRemove w4 c

/-- The events `destroy` records, as a function of the destroyed client's
timer states and channel list (proved to match `destroy` below). -/
def destroyEvents (lt it qt : Option Bool) (chs : List ChannelId) (c : ClientId) :
    List Event :=
  (match lt with
   | none => [Event.nilDeref c .login]
   | some _ => [Event.stopTimer c .login])
  ++ (match it with
      | none => []
      | some _ => [Event.stopTimer c .idle])
  ++ (match qt with
      | none => []
      | some _ => [Event.stopTimer c .quit])
  ++ chs.map (fun ch => Event.chanQuit ch c) ++ [Event.regRemove c]

/-- `Client.Quit(message)`: no-op if already quit; otherwise enqueue the
connection-closed error and the end-marker to the client's own reply queue,
set `hasQuit`, compute the friends set, remove the client itself from it,
run `destroy()`, and finally, if the friends set is non-empty, deliver one
quit notification to each remaining friend. -/
def Quit (w : World) (c : ClientId) (message : String) : World :=
  if (w.clients c).hasQuit then w
  else
    let w1 := Reply w c (.rplError "connection closed")
    let w2 := Reply w1 c .eof
    let w3 := (w2.upd c (fun st => { st with hasQuit := true })).log (.setHasQuit c)
    let friends := (Friends w3 c).filter (fun f => f ≠ c)
    let w4 := destroy w3 c
    if friends.length > 0 then
      broadcast w4 friends (.rplQuit ((w4.clients c).UserHost) message)
    else w4

/-- Enqueue a command to the Command Intake Queue `server.commands`. -/
def pushCommand (w : World) (cmd : Command) : World :=
  ({ w with commands := w.commands ++ [cmd] }).log (.enqueueCmd cmd)

/-- `Client.connectionTimeout()`: the callback of the login and quit timers.
Builds a `QuitCommand` with reason `"connection timeout"`, tags it with this
client and enqueues it to the Command Intake Queue.  It does not call
`Quit()` directly. -/
def connectionTimeout (w : World) (c : ClientId) : World :=
  pushCommand w { kind := .quitCmd "connection timeout", client := some c }

/-- `Client.connectionClosed()`: run by the read pump after the end-marker.
Builds a `QuitCommand` with reason `"connection closed"`, tags it with this
client and enqueues it to the Command Intake Queue. -/
def connectionClosed (w : World) (c : ClientId) : World :=
  pushCommand w { kind := .quitCmd "connection closed", client := some c }

/-- `Client.Touch()`: stop the quit timer when non-nil, then arm the idle
timer (`AfterFunc` when nil, `Reset` otherwise). -/
def Touch (w : World) (c : ClientId) : World :=
  let w1 :=
    match (w.clients c).quitTimer with
    | none => w
    | some _ =>
        (w.upd c (fun st => { st with quitTimer := stopTimer st.quitTimer })).log
          (.stopTimer c .quit)
  w1.upd c (fun st => { st with idleTimer := some true })

/-- `Client.Idle()`: send the keepalive ping reply, then arm the quit timer
(`AfterFunc` when nil, `Reset` otherwise). -/
def Idle (w : World) (c : ClientId) : World :=
  let w1 := Reply w c (.rplPing ((w.clients c).UserHost))
  w1.upd c (fun st => { st with quitTimer := some true })

/-- `Client.Register()`: set the phase to Normal, stop the login timer
(unguarded `Stop()`), then call `Touch()`. -/
def Register (w : World) (c : ClientId) : World :=
  let w1 := w.upd c (fun st => { st with phase := Phase.Normal })
  let w2 :=
    match (w1.clients c).loginTimer with
    | none => w1.log (.nilDeref c .login)
    | some _ =>
        (w1.upd c (fun st => { st with loginTimer := stopTimer st.loginTimer })).log
          (.stopTimer c .login)
  Touch w2 c

/-- The login timer firing: only an armed timer fires; firing disarms it and
runs its callback `connectionTimeout`. -/
def fireLoginTimer (w : World) (c : ClientId) : World :=
  if (w.clients c).loginTimer = some true then
    connectionTimeout (w.upd c (fun st => { st with loginTimer := some false })) c
  else w

/-- The quit timer firing: only an armed timer fires; firing disarms it and
runs its callback `connectionTimeout`. -/
def fireQuitTimer (w : World) (c : ClientId) : World :=
  if (w.clients c).quitTimer = some true then
    connectionTimeout (w.upd c (fun st => { st with quitTimer := some false })) c
  else w

/-- The idle timer firing: only an armed timer fires; firing disarms it and
runs its callback `connectionIdle`, which hands the client to the server's
idle intake; the server goroutine then calls `Idle()` on it. -/
def fireIdleTimer (w : World) (c : ClientId) : World :=
  if (w.clients c).idleTimer = some true then
    Idle (w.upd c (fun st => { st with idleTimer := some false })) c
  else w

/-- `NewClient`: the freshly constructed client state — empty identity and
channel set, `hasQuit` false, phase from the external server configuration,
empty reply queue, and the login timer armed by
`time.AfterFunc(LOGIN_TIMEOUT, client.connectionTimeout)`; the idle and quit
timer pointers start nil.  (The three goroutines it starts are modelled as
the separate functions `readCommands` and `writeReplies` and the
hostname-lookup intake.) -/
def NewClient (w : World) (c : ClientId) (initPhase : Phase) : World :=
  { w with
    clients := fun i =>
      if i = c then
        { nick := "", username := "", hostname := "", hasQuit := false,
          phase := initPhase, channels := [], loginTimer := some true,
          idleTimer := none, quitTimer := none, replies := [] }
      else w.clients i }

/-- `Client.SetNickname(nickname)`: assign the nickname, then insert the
client into the registry. -/
def SetNickname (w : World) (c : ClientId) (nickname : String) : World :=
  let w1 := (w.upd c (fun st => { st with nick := nickname })).log (.setNick c nickname)
  registryAdd w1 c

/-- `Client.ChangeNickname(nickname)`: build the nick-change reply before
changing the nick (capturing the original source identity), then remove the
old registry key, assign the new nickname, insert the new registry key, and
deliver the pre-rendered reply to every member of `Friends()`. -/
def ChangeNickname (w : World) (c : ClientId) (nickname : String) : World :=
  let reply := Line.rplNick ((w.clients c).UserHost) nickname
  let w1 := registryRemove w c
  let w2 := (w1.upd c (fun st => { st with nick := nickname })).log (.setNick c nickname)
  let w3 := registryAdd w2 c
  broadcast w3 (Friends w3 c) reply

/-- The magic end-of-stream string yielded by the Line Socket's read side.
Modelled from the spec: the `EOF` constant is defined outside this file; it
is a sentinel string distinct from legitimate protocol lines. -/
def EOF : String := "\x00EOF\x00"

/-- Parse-error classification.  Modelled from the spec: the Command Parser
collaborator returns a command or an error of kind NotEnoughArgs or
Other. -/
inductive ParseError where
  | notEnoughArgs
  | otherErr
deriving DecidableEq, Repr

/-- `parts[0]` of `strings.SplitN(line, " ", 2)`: the text before the first
space (the whole line when it has no space). -/
def splitVerb (l : String) : String :=
  String.mk (l.data.takeWhile (fun ch => ch ≠ ' '))

/-- `client.ErrNeedMoreParams(verb)`: reply with the protocol error naming
the offending verb.  Modelled from the spec: the numeric-reply formatting is
external; the error line is delivered through `Reply`. -/
def ErrNeedMoreParams (w : World) (c : ClientId) (verb : String) : World :=
  Reply w c (.needMoreParams verb)

/-- One input the read pump can wake up on: a resolved-hostname request from
the `lookups` channel, or a line from the Line Socket. -/
inductive RInput where
  | lookup (ip : String)
  | line (l : String)
deriving DecidableEq, Repr

/-- The `lookups` branch of the read pump: forward the request, paired with
this client, to the server-wide hostname intake `server.hostnames`. -/
def pushHostname (w : World) (c : ClientId) (ip : String) : World :=
  ({ w with hostnames := w.hostnames ++ [(c, ip)] }).log (.enqueueHostname c ip)

/-- `Client.readCommands()`: service the pending inputs in order.  A line
equal to `EOF` ends the loop and runs `connectionClosed`; a line that parses
is tagged with this client and enqueued to the Command Intake Queue; a
NotEnoughArgs parse failure replies with the error naming the verb before
the first space; any other parse failure is dropped.  An exhausted input
list means the pump is still blocked waiting (no termination).  The parser
is a parameter (external collaborator). -/
def readCommands (parse : String → Except ParseError CmdKind)
    (w : World) (c : ClientId) : List RInput → World
  | [] => w
  | .lookup ip :: rest => readCommands parse (pushHostname w c ip) c rest
  | .line l :: rest =>
      if l = EOF then connectionClosed w c
      else
        match parse l with
        | .ok k => readCommands parse (pushCommand w { kind := k, client := some c }) c rest
        | .error .notEnoughArgs =>
            readCommands parse (ErrNeedMoreParams w c (splitVerb l)) c rest
        | .error .otherErr => readCommands parse w c rest

/-- Observable actions of the write pump on the Line Socket. -/
inductive WEvent where
  | wrote (l : Line)
  | closed
deriving DecidableEq, Repr

/-- `Client.writeReplies()`: drain the reply queue in order; stop on the
end-marker sentinel or on a write failure, then close the socket.  `writeOk
n` tells whether the n-th socket write succeeds (the transport is external).
An exhausted list means the pump is still blocked waiting (no close yet). -/
def writeReplies (writeOk : Nat → Bool) : Nat → List Line → List WEvent
  | _, [] => []
  | n, l :: rest =>
      if l = Line.eof then [.closed]
      else if writeOk n then .wrote l :: writeReplies writeOk (n + 1) rest
      else [.closed]

/-- The world after `Quit`'s first three steps: the connection-closed error
and the end-marker enqueued to the client's own reply queue, then `hasQuit`
set.  Used to phrase the `Quit` lemmas. -/
def quitStage (w : World) (c : ClientId) : World :=
  ((Reply (Reply w c (.rplError "connection closed")) c .eof).upd c
      (fun st => { st with hasQuit := true })).log (.setHasQuit c)

/-- The world after `ChangeNickname`'s three mutations (registry key removed
under the old nick, nick assigned, registry key inserted under the new
nick), before the notification broadcast.  Used to phrase the
`ChangeNickname` lemmas. -/
def cnStage (w : World) (c : ClientId) (n : String) : World :=
  registryAdd
    (((registryRemove w c).upd c (fun st => { st with nick := n })).log (.setNick c n)) c

/-- The lines written by a run of the write pump, in write order. -/
def writtenOf : List WEvent → List Line
  | [] => []
  | .wrote l :: r => l :: writtenOf r
  | .closed :: r => writtenOf r

/-- Whether the write pump keeps draining at an indexed queue item: the item
is not the sentinel and its socket write succeeds. -/
def pumpKeeps (writeOk : Nat → Bool) (x : Nat × Line) : Bool :=
  if x.2 = Line.eof then false else writeOk x.1

/-- A concrete client for witnesses: alice, registered, in channels 0 and
1. -/
def stAlice : ClientState :=
  { nick := "alice", username := "ua", hostname := "ha", hasQuit := false,
    phase := .Normal, channels := [0, 1], loginTimer := some true,
    idleTimer := some true, quitTimer := none, replies := [] }

/-- A concrete client for witnesses: bob, in channel 0. -/
def stBob : ClientState :=
  { nick := "bob", username := "ub", hostname := "hb", hasQuit := false,
    phase := .Normal, channels := [0], loginTimer := some true,
    idleTimer := some true, quitTimer := none, replies := [] }

/-- A concrete client for witnesses: carol, in channel 1. -/
def stCarol : ClientState :=
  { nick := "carol", username := "uc", hostname := "hc", hasQuit := false,
    phase := .Normal, channels := [1], loginTimer := some true,
    idleTimer := some true, quitTimer := none, replies := [] }

/-- A concrete client for witnesses: a freshly connected, unregistered
client in no channels. -/
def stFresh : ClientState :=
  { nick := "", username := "", hostname := "", hasQuit := false,
    phase := .Registering, channels := [], loginTimer := some true,
    idleTimer := none, quitTimer := none, replies := [] }

/-- A concrete client for witnesses: one that has already quit. -/
def stGone : ClientState :=
  { nick := "gone", username := "ug", hostname := "hg", hasQuit := true,
    phase := .Normal, channels := [], loginTimer := some false,
    idleTimer := some false, quitTimer := some false, replies := [] }

/-- A concrete world for witnesses: alice (0) shares channel 0 with bob (1)
and channel 1 with carol (2); client 3 is fresh and channel-less; client 4
has already quit. -/
def w0 : World :=
  { clients := fun i =>
      if i = 0 then stAlice else if i = 1 then stBob else
      if i = 2 then stCarol else if i = 4 then stGone else stFresh,
    members := fun ch => if ch = 0 then [0, 1] else if ch = 1 then [0, 2] else [],
    registry := [("alice", 0), ("bob", 1), ("carol", 2)],
    commands := [], hostnames := [], events := [] }

/-! Basic projection lemmas for the world-update helpers. -/

@[simp]
lemma World.upd_clients_self (w : World) (c : ClientId) (f : ClientState → ClientState) :
    (w.upd c f).clients c = f (w.clients c) := by
  simp [World.upd]

lemma World.upd_clients_ne (w : World) (c i : ClientId) (f : ClientState → ClientState)
    (h : i ≠ c) : (w.upd c f).clients i = w.clients i := by
  simp [World.upd, h]

@[simp]
lemma World.upd_members (w : World) (c : ClientId) (f : ClientState → ClientState) :
    (w.upd c f).members = w.members := rfl

@[simp]
lemma World.upd_registry (w : World) (c : ClientId) (f : ClientState → ClientState) :
    (w.upd c f).registry = w.registry := rfl

@[simp]
lemma World.upd_commands (w : World) (c : ClientId) (f : ClientState → ClientState) :
    (w.upd c f).commands = w.commands := rfl

@[simp]
lemma World.upd_events (w : World) (c : ClientId) (f : ClientState → ClientState) :
    (w.upd c f).events = w.events := rfl

@[simp]
lemma World.log_clients (w : World) (e : Event) : (w.log e).clients = w.clients := rfl

@[simp]
lemma World.log_members (w : World) (e : Event) : (w.log e).members = w.members := rfl

@[simp]
lemma World.log_registry (w : World) (e : Event) : (w.log e).registry = w.registry := rfl

@[simp]
lemma World.log_commands (w : World) (e : Event) : (w.log e).commands = w.commands := rfl

@[simp]
lemma World.log_events (w : World) (e : Event) : (w.log e).events = w.events ++ [e] := rfl

/-! Lemmas about `ClientSet.add` and `Friends`. -/

lemma ClientSet.mem_add (s : List ClientId) (x y : ClientId) :
    y ∈ ClientSet.add s x ↔ y ∈ s ∨ y = x := by
  unfold ClientSet.add
  split
  · rename_i hx
    constructor
    · exact Or.inl
    · rintro (h | rfl)
      · exact h
      · exact hx
  · simp

lemma ClientSet.nodup_add (s : List ClientId) (x : ClientId) (h : s.Nodup) :
    (ClientSet.add s x).Nodup := by
  unfold ClientSet.add
  split
  · exact h
  · rename_i hx
    simpa [List.nodup_append] using ⟨h, hx⟩

lemma mem_foldl_add (l : List ClientId) (acc : List ClientId) (x : ClientId) :
    x ∈ l.foldl ClientSet.add acc ↔ x ∈ acc ∨ x ∈ l := by
  induction l generalizing acc with
  | nil => simp
  | cons y ys ih =>
      simp only [List.foldl_cons, ih, ClientSet.mem_add, List.mem_cons]
      tauto

lemma nodup_foldl_add (l : List ClientId) (acc : List ClientId) (h : acc.Nodup) :
    (l.foldl ClientSet.add acc).Nodup := by
  induction l generalizing acc with
  | nil => exact h
  | cons y ys ih => exact ih _ (ClientSet.nodup_add _ _ h)

lemma mem_friends_fold (w : World) (chs : List ChannelId) (acc : List ClientId) (x : ClientId) :
    x ∈ chs.foldl (fun a ch => (w.members ch).foldl ClientSet.add a) acc
      ↔ x ∈ acc ∨ ∃ ch ∈ chs, x ∈ w.members ch := by
  induction chs generalizing acc with
  | nil => simp
  | cons ch chs ih =>
      simp only [List.foldl_cons, ih, mem_foldl_add, List.mem_cons]
      constructor
      · rintro (⟨h | h⟩ | ⟨ch', h1, h2⟩)
        · exact Or.inl h
        · exact Or.inr ⟨ch, Or.inl rfl, h⟩
        · exact Or.inr ⟨ch', Or.inr h1, h2⟩
      · rintro (h | ⟨ch', (rfl | h1), h2⟩)
        · exact Or.inl (Or.inl h)
        · exact Or.inl (Or.inr h2)
        · exact Or.inr ⟨ch', h1, h2⟩

lemma mem_Friends (w : World) (c x : ClientId) :
    x ∈ Friends w c ↔ x = c ∨ ∃ ch ∈ (w.clients c).channels, x ∈ w.members ch := by
  unfold Friends
  rw [mem_friends_fold]
  simp [ClientSet.add]

lemma self_mem_Friends (w : World) (c : ClientId) : c ∈ Friends w c := by
  rw [mem_Friends]; exact Or.inl rfl

lemma nodup_friends_fold (w : World) (chs : List ChannelId) (acc : List ClientId)
    (h : acc.Nodup) :
    (chs.foldl (fun a ch => (w.members ch).foldl ClientSet.add a) acc).Nodup := by
  induction chs generalizing acc with
  | nil => exact h
  | cons ch chs ih => exact ih _ (nodup_foldl_add _ _ h)

lemma nodup_Friends (w : World) (c : ClientId) : (Friends w c).Nodup := by
  unfold Friends
  apply nodup_friends_fold
  simp [ClientSet.add]

lemma Friends_congr (w w' : World) (c : ClientId)
    (hch : (w'.clients c).channels = (w.clients c).channels)
    (hm : w'.members = w.members) : Friends w' c = Friends w c := by
  unfold Friends
  rw [hch, hm]

/-! Lemmas about `Reply` and `broadcast`. -/

lemma Reply_noop (w : World) (c : ClientId) (l : Line)
    (h : (w.clients c).hasQuit = true) : Reply w c l = w := by
  unfold Reply
  simp [h]

lemma Reply_clients (w : World) (c : ClientId) (l : Line) (i : ClientId) :
    (Reply w c l).clients i
      = { w.clients i with replies := ((Reply w c l).clients i).replies } := by
  unfold Reply
  split
  · rfl
  · by_cases h : i = c <;> simp [World.upd, World.log, h]

lemma Reply_hasQuit (w : World) (c : ClientId) (l : Line) (i : ClientId) :
    ((Reply w c l).clients i).hasQuit = (w.clients i).hasQuit := by
  rw [Reply_clients]

lemma Reply_clients_ne (w : World) (c : ClientId) (l : Line) (i : ClientId) (h : i ≠ c) :
    (Reply w c l).clients i = w.clients i := by
  unfold Reply
  split
  · rfl
  · simp [World.upd, World.log, h]

lemma Reply_replies_self (w : World) (c : ClientId) (l : Line)
    (h : (w.clients c).hasQuit = false) :
    ((Reply w c l).clients c).replies = (w.clients c).replies ++ [l] := by
  unfold Reply
  simp [h, World.upd, World.log]

lemma Reply_events (w : World) (c : ClientId) (l : Line)
    (h : (w.clients c).hasQuit = false) :
    (Reply w c l).events = w.events ++ [Event.reply c l] := by
  unfold Reply
  simp [h, World.upd, World.log]

@[simp]
lemma Reply_members (w : World) (c : ClientId) (l : Line) :
    (Reply w c l).members = w.members := by
  unfold Reply
  split <;> simp

@[simp]
lemma Reply_registry (w : World) (c : ClientId) (l : Line) :
    (Reply w c l).registry = w.registry := by
  unfold Reply
  split <;> simp

@[simp]
lemma Reply_commands (w : World) (c : ClientId) (l : Line) :
    (Reply w c l).commands = w.commands := by
  unfold Reply
  split <;> simp

lemma broadcast_clients (w : World) (cs : List ClientId) (l : Line) (i : ClientId) :
    (broadcast w cs l).clients i
      = { w.clients i with replies := ((broadcast w cs l).clients i).replies } := by
  induction cs generalizing w with
  | nil => rfl
  | cons f fs ih =>
      show (broadcast (Reply w f l) fs l).clients i = _
      rw [ih, Reply_clients]
      rfl

lemma broadcast_hasQuit (w : World) (cs : List ClientId) (l : Line) (i : ClientId) :
    ((broadcast w cs l).clients i).hasQuit = (w.clients i).hasQuit := by
  rw [broadcast_clients]

@[simp]
lemma broadcast_members (w : World) (cs : List ClientId) (l : Line) :
    (broadcast w cs l).members = w.members := by
  induction cs generalizing w with
  | nil => rfl
  | cons f fs ih =>
      show (broadcast (Reply w f l) fs l).members = _
      rw [ih, Reply_members]

@[simp]
lemma broadcast_registry (w : World) (cs : List ClientId) (l : Line) :
    (broadcast w cs l).registry = w.registry := by
  induction cs generalizing w with
  | nil => rfl
  | cons f fs ih =>
      show (broadcast (Reply w f l) fs l).registry = _
      rw [ih, Reply_registry]

@[simp]
lemma broadcast_commands (w : World) (cs : List ClientId) (l : Line) :
    (broadcast w cs l).commands = w.commands := by
  induction cs generalizing w with
  | nil => rfl
  | cons f fs ih =>
      show (broadcast (Reply w f l) fs l).commands = _
      rw [ih, Reply_commands]

lemma broadcast_clients_not_mem (w : World) (cs : List ClientId) (l : Line) (i : ClientId)
    (h : i ∉ cs) : (broadcast w cs l).clients i = w.clients i := by
  induction cs generalizing w with
  | nil => rfl
  | cons f fs ih =>
      have hf : i ≠ f := fun he => h (by simp [he])
      have hfs : i ∉ fs := fun hm => h (by simp [hm])
      show (broadcast (Reply w f l) fs l).clients i = _
      rw [ih _ hfs, Reply_clients_ne _ _ _ _ hf]

lemma broadcast_replies_mem (w : World) (cs : List ClientId) (l : Line) (i : ClientId)
    (hnd : cs.Nodup) (hi : i ∈ cs) (hq : (w.clients i).hasQuit = false) :
    ((broadcast w cs l).clients i).replies = (w.clients i).replies ++ [l] := by
  induction cs generalizing w with
  | nil => cases hi
  | cons f fs ih =>
      rcases List.mem_cons.mp hi with rfl | hm
      · show ((broadcast (Reply w i l) fs l).clients i).replies = _
        have hnot : i ∉ fs := (List.nodup_cons.mp hnd).1
        rw [broadcast_clients_not_mem _ _ _ _ hnot, Reply_replies_self _ _ _ hq]
      · show ((broadcast (Reply w f l) fs l).clients i).replies = _
        by_cases he : i = f
        · exact absurd hm (he ▸ (List.nodup_cons.mp hnd).1)
        · rw [ih _ (List.nodup_cons.mp hnd).2 hm
            (by rw [Reply_hasQuit]; exact hq), Reply_clients_ne _ _ _ _ he]

lemma broadcast_events (w : World) (cs : List ClientId) (l : Line) :
    (broadcast w cs l).events
      = w.events ++ (cs.filter (fun f => !(w.clients f).hasQuit)).map
          (fun f => Event.reply f l) := by
  induction cs generalizing w with
  | nil => simp [broadcast]
  | cons f fs ih =>
      show (broadcast (Reply w f l) fs l).events = _
      rw [ih]
      rcases hq : (w.clients f).hasQuit with _ | _
      · rw [Reply_events _ _ _ hq]
        have hstable : ∀ g, ((Reply w f l).clients g).hasQuit = (w.clients g).hasQuit :=
          fun g => Reply_hasQuit w f l g
        simp [List.filter_cons, hq, hstable, List.append_assoc]
      · rw [Reply_noop _ _ _ hq]
        simp [List.filter_cons, hq]

/-! Lemmas about the timer stops, the channel-departure loop and
`destroy`. -/

lemma stopLoginU_clients_self (w : World) (c : ClientId) :
    (stopLoginU w c).clients c
      = { w.clients c with loginTimer := stopTimer (w.clients c).loginTimer } := by
  unfold stopLoginU
  rcases h : (w.clients c).loginTimer with _ | b
  · simp only [World.log_clients, h, stopTimer]
    rw [← h]
  · simp [h, stopTimer]

lemma stopLoginU_clients_ne (w : World) (c i : ClientId) (h : i ≠ c) :
    (stopLoginU w c).clients i = w.clients i := by
  unfold stopLoginU
  rcases (w.clients c).loginTimer with _ | b
  · simp
  · simp [World.upd_clients_ne _ _ _ _ h]

lemma stopLoginU_members (w : World) (c : ClientId) :
    (stopLoginU w c).members = w.members := by
  unfold stopLoginU
  rcases (w.clients c).loginTimer with _ | b <;> simp

lemma stopLoginU_registry (w : World) (c : ClientId) :
    (stopLoginU w c).registry = w.registry := by
  unfold stopLoginU
  rcases (w.clients c).loginTimer with _ | b <;> simp

lemma stopLoginU_commands (w : World) (c : ClientId) :
    (stopLoginU w c).commands = w.commands := by
  unfold stopLoginU
  rcases (w.clients c).loginTimer with _ | b <;> simp

lemma stopLoginU_events (w : World) (c : ClientId) :
    (stopLoginU w c).events
      = w.events
        ++ (match (w.clients c).loginTimer with
            | none => [Event.nilDeref c .login]
            | some _ => [Event.stopTimer c .login]) := by
  unfold stopLoginU
  rcases h : (w.clients c).loginTimer with _ | b <;> simp [h]

lemma stopIdleG_clients_self (w : World) (c : ClientId) :
    (stopIdleG w c).clients c
      = { w.clients c with idleTimer := stopTimer (w.clients c).idleTimer } := by
  unfold stopIdleG
  rcases h : (w.clients c).idleTimer with _ | b
  · simp only [h, stopTimer]
    rw [← h]
  · simp [h, stopTimer]

lemma stopIdleG_clients_ne (w : World) (c i : ClientId) (h : i ≠ c) :
    (stopIdleG w c).clients i = w.clients i := by
  unfold stopIdleG
  rcases (w.clients c).idleTimer with _ | b
  · rfl
  · simp [World.upd_clients_ne _ _ _ _ h]

lemma stopIdleG_members (w : World) (c : ClientId) :
    (stopIdleG w c).members = w.members := by
  unfold stopIdleG
  rcases (w.clients c).idleTimer with _ | b <;> simp

lemma stopIdleG_registry (w : World) (c : ClientId) :
    (stopIdleG w c).registry = w.registry := by
  unfold stopIdleG
  rcases (w.clients c).idleTimer with _ | b <;> simp

lemma stopIdleG_commands (w : World) (c : ClientId) :
    (stopIdleG w c).commands = w.commands := by
  unfold stopIdleG
  rcases (w.clients c).idleTimer with _ | b <;> simp

lemma stopIdleG_events (w : World) (c : ClientId) :
    (stopIdleG w c).events
      = w.events
        ++ (match (w.clients c).idleTimer with
            | none => []
            | some _ => [Event.stopTimer c .idle]) := by
  unfold stopIdleG
  rcases h : (w.clients c).idleTimer with _ | b <;> simp [h]

lemma stopQuitG_clients_self (w : World) (c : ClientId) :
    (stopQuitG w c).clients c
      = { w.clients c with quitTimer := stopTimer (w.clients c).quitTimer } := by
  unfold stopQuitG
  rcases h : (w.clients c).quitTimer with _ | b
  · simp only [h, stopTimer]
    rw [← h]
  · simp [h, stopTimer]

lemma stopQuitG_clients_ne (w : World) (c i : ClientId) (h : i ≠ c) :
    (stopQuitG w c).clients i = w.clients i := by
  unfold stopQuitG
  rcases (w.clients c).quitTimer with _ | b
  · rfl
  · simp [World.upd_clients_ne _ _ _ _ h]

lemma stopQuitG_members (w : World) (c : ClientId) :
    (stopQuitG w c).members = w.members := by
  unfold stopQuitG
  rcases (w.clients c).quitTimer with _ | b <;> simp

lemma stopQuitG_registry (w : World) (c : ClientId) :
    (stopQuitG w c).registry = w.registry := by
  unfold stopQuitG
  rcases (w.clients c).quitTimer with _ | b <;> simp

lemma stopQuitG_commands (w : World) (c : ClientId) :
    (stopQuitG w c).commands = w.commands := by
  unfold stopQuitG
  rcases (w.clients c).quitTimer with _ | b <;> simp

lemma stopQuitG_events (w : World) (c : ClientId) :
    (stopQuitG w c).events
      = w.events
        ++ (match (w.clients c).quitTimer with
            | none => []
            | some _ => [Event.stopTimer c .quit]) := by
  unfold stopQuitG
  rcases h : (w.clients c).quitTimer with _ | b <;> simp [h]

lemma chanfold_clients (w : World) (cs : List ChannelId) (c : ClientId) :
    (cs.foldl (fun acc ch => acc.log (.chanQuit ch c)) w).clients = w.clients := by
  induction cs generalizing w with
  | nil => rfl
  | cons ch chs ih =>
      show (chs.foldl _ (w.log _)).clients = _
      rw [ih]
      rfl

lemma chanfold_members (w : World) (cs : List ChannelId) (c : ClientId) :
    (cs.foldl (fun acc ch => acc.log (.chanQuit ch c)) w).members = w.members := by
  induction cs generalizing w with
  | nil => rfl
  | cons ch chs ih =>
      show (chs.foldl _ (w.log _)).members = _
      rw [ih]
      rfl

lemma chanfold_registry (w : World) (cs : List ChannelId) (c : ClientId) :
    (cs.foldl (fun acc ch => acc.log (.chanQuit ch c)) w).registry = w.registry := by
  induction cs generalizing w with
  | nil => rfl
  | cons ch chs ih =>
      show (chs.foldl _ (w.log _)).registry = _
      rw [ih]
      rfl

lemma chanfold_commands (w : World) (cs : List ChannelId) (c : ClientId) :
    (cs.foldl (fun acc ch => acc.log (.chanQuit ch c)) w).commands = w.commands := by
  induction cs generalizing w with
  | nil => rfl
  | cons ch chs ih =>
      show (chs.foldl _ (w.log _)).commands = _
      rw [ih]
      rfl

lemma chanfold_events (w : World) (cs : List ChannelId) (c : ClientId) :
    (cs.foldl (fun acc ch => acc.log (.chanQuit ch c)) w).events
      = w.events ++ cs.map (fun ch => Event.chanQuit ch c) := by
  induction cs generalizing w with
  | nil => simp
  | cons ch chs ih =>
      show (chs.foldl _ (w.log _)).events = _
      rw [ih]
      simp

lemma registryRemove_clients (w : World) (c : ClientId) :
    (registryRemove w c).clients = w.clients := rfl

lemma registryRemove_members (w : World) (c : ClientId) :
    (registryRemove w c).members = w.members := rfl

lemma registryRemove_commands (w : World) (c : ClientId) :
    (registryRemove w c).commands = w.commands := rfl

lemma registryRemove_registry (w : World) (c : ClientId) :
    (registryRemove w c).registry
      = w.registry.filter (fun e => e.1 ≠ ((w.clients c).NickR)) := rfl

lemma registryRemove_events (w : World) (c : ClientId) :
    (registryRemove w c).events = w.events ++ [Event.regRemove c] := rfl

lemma registryAdd_clients (w : World) (c : ClientId) :
    (registryAdd w c).clients = w.clients := rfl

lemma registryAdd_members (w : World) (c : ClientId) :
    (registryAdd w c).members = w.members := rfl

lemma registryAdd_commands (w : World) (c : ClientId) :
    (registryAdd w c).commands = w.commands := rfl

lemma registryAdd_registry (w : World) (c : ClientId) :
    (registryAdd w c).registry = w.registry ++ [(((w.clients c).NickR), c)] := rfl

lemma registryAdd_events (w : World) (c : ClientId) :
    (registryAdd w c).events = w.events ++ [Event.regAdd c] := rfl

lemma destroy_clients_self (w : World) (c : ClientId) :
    (destroy w c).clients c
      = { w.clients c with
          loginTimer := stopTimer (w.clients c).loginTimer,
          idleTimer := stopTimer (w.clients c).idleTimer,
          quitTimer := stopTimer (w.clients c).quitTimer } := by
  show (registryRemove _ c).clients c = _
  rw [registryRemove_clients, chanfold_clients, stopQuitG_clients_self,
    stopIdleG_clients_self, stopLoginU_clients_self]

lemma destroy_clients_ne (w : World) (c i : ClientId) (h : i ≠ c) :
    (destroy w c).clients i = w.clients i := by
  show (registryRemove _ c).clients i = _
  rw [registryRemove_clients, chanfold_clients, stopQuitG_clients_ne _ _ _ h,
    stopIdleG_clients_ne _ _ _ h, stopLoginU_clients_ne _ _ _ h]

lemma destroy_members (w : World) (c : ClientId) :
    (destroy w c).members = w.members := by
  show (registryRemove _ c).members = _
  rw [registryRemove_members, chanfold_members, stopQuitG_members,
    stopIdleG_members, stopLoginU_members]

lemma destroy_commands (w : World) (c : ClientId) :
    (destroy w c).commands = w.commands := by
  show (registryRemove _ c).commands = _
  rw [registryRemove_commands, chanfold_commands, stopQuitG_commands,
    stopIdleG_commands, stopLoginU_commands]

lemma destroy_registry (w : World) (c : ClientId) :
    (destroy w c).registry
      = w.registry.filter (fun e => e.1 ≠ ((w.clients c).NickR)) := by
  show (registryRemove _ c).registry = _
  rw [registryRemove_registry, chanfold_registry, chanfold_clients,
    stopQuitG_registry, stopIdleG_registry, stopLoginU_registry,
    stopQuitG_clients_self, stopIdleG_clients_self, stopLoginU_clients_self]
  simp [ClientState.NickR]

lemma destroy_events (w : World) (c : ClientId) :
    (destroy w c).events
      = w.events
        ++ destroyEvents (w.clients c).loginTimer (w.clients c).idleTimer
            (w.clients c).quitTimer (w.clients c).channels c := by
  show (registryRemove _ c).events = _
  rw [registryRemove_events, chanfold_events,
    stopQuitG_clients_self, stopIdleG_clients_self, stopLoginU_clients_self,
    stopQuitG_events, stopIdleG_events, stopLoginU_events,
    stopIdleG_clients_self, stopLoginU_clients_self]
  simp [destroyEvents]

/-! Lemmas about `Quit`. -/

lemma Quit_noop (w : World) (c : ClientId) (m : String)
    (h : (w.clients c).hasQuit = true) : Quit w c m = w := by
  unfold Quit
  simp [h]

lemma Quit_eq (w : World) (c : ClientId) (m : String)
    (hq : (w.clients c).hasQuit = false) :
    Quit w c m
      = broadcast
          (destroy
            (((Reply (Reply w c (.rplError "connection closed")) c .eof).upd c
                (fun st => { st with hasQuit := true })).log (.setHasQuit c)) c)
          ((Friends
              (((Reply (Reply w c (.rplError "connection closed")) c .eof).upd c
                  (fun st => { st with hasQuit := true })).log (.setHasQuit c)) c).filter
            (fun f => f ≠ c))
          (.rplQuit
            (((destroy
                (((Reply (Reply w c (.rplError "connection closed")) c .eof).upd c
                    (fun st => { st with hasQuit := true })).log (.setHasQuit c)) c).clients
                c).UserHost)
            m) := by
  unfold Quit
  simp only [hq, Bool.false_eq_true, if_false]
  set w3 := (((Reply (Reply w c (.rplError "connection closed")) c .eof).upd c
      (fun st => { st with hasQuit := true })).log (.setHasQuit c)) with hw3
  set friends := (Friends w3 c).filter (fun f => f ≠ c) with hfr
  by_cases hl : friends.length > 0
  · simp [hl]
  · have hnil : friends = [] := List.eq_nil_of_length_eq_zero (Nat.eq_zero_of_not_pos hl)
    simp [hl, hnil, broadcast]

lemma Quit_eq2 (w : World) (c : ClientId) (m : String)
    (hq : (w.clients c).hasQuit = false) :
    Quit w c m
      = broadcast (destroy (quitStage w c) c)
          ((Friends (quitStage w c) c).filter (fun f => f ≠ c))
          (.rplQuit (((destroy (quitStage w c) c).clients c).UserHost) m) :=
  Quit_eq w c m hq

lemma quitStage_clients_ne (w : World) (c i : ClientId) (h : i ≠ c) :
    (quitStage w c).clients i = w.clients i := by
  unfold quitStage
  simp only [World.log_clients]
  rw [World.upd_clients_ne _ _ _ _ h, Reply_clients_ne _ _ _ _ h,
    Reply_clients_ne _ _ _ _ h]

lemma quitStage_clients_self (w : World) (c : ClientId) :
    (quitStage w c).clients c
      = { (Reply (Reply w c (.rplError "connection closed")) c .eof).clients c with
          hasQuit := true } := by
  unfold quitStage
  simp only [World.log_clients, World.upd_clients_self]

lemma quitStage_hasQuit_self (w : World) (c : ClientId) :
    ((quitStage w c).clients c).hasQuit = true := by
  rw [quitStage_clients_self]

lemma quitStage_clients_eta (w : World) (c i : ClientId) :
    (quitStage w c).clients i
      = { w.clients i with
          hasQuit := ((quitStage w c).clients i).hasQuit,
          replies := ((quitStage w c).clients i).replies } := by
  by_cases h : i = c
  · subst h
    rw [quitStage_clients_self, Reply_clients, Reply_clients]
  · rw [quitStage_clients_ne _ _ _ h]

lemma quitStage_replies_self (w : World) (c : ClientId)
    (hq : (w.clients c).hasQuit = false) :
    ((quitStage w c).clients c).replies
      = (w.clients c).replies ++ [.rplError "connection closed", .eof] := by
  rw [quitStage_clients_self]
  show ((Reply (Reply w c (.rplError "connection closed")) c .eof).clients c).replies = _
  rw [Reply_replies_self _ _ _ (by rw [Reply_hasQuit]; exact hq),
    Reply_replies_self _ _ _ hq]
  simp

lemma quitStage_members (w : World) (c : ClientId) :
    (quitStage w c).members = w.members := by
  unfold quitStage
  simp

lemma quitStage_registry (w : World) (c : ClientId) :
    (quitStage w c).registry = w.registry := by
  unfold quitStage
  simp

lemma quitStage_commands (w : World) (c : ClientId) :
    (quitStage w c).commands = w.commands := by
  unfold quitStage
  simp

lemma quitStage_events (w : World) (c : ClientId)
    (hq : (w.clients c).hasQuit = false) :
    (quitStage w c).events
      = w.events
        ++ [Event.reply c (.rplError "connection closed"), Event.reply c .eof,
            Event.setHasQuit c] := by
  unfold quitStage
  simp only [World.log_events, World.upd_events]
  rw [Reply_events _ _ _ (by rw [Reply_hasQuit]; exact hq), Reply_events _ _ _ hq]
  simp

lemma quitStage_friends (w : World) (c : ClientId) :
    Friends (quitStage w c) c = Friends w c := by
  apply Friends_congr
  · rw [quitStage_clients_eta]
  · exact quitStage_members w c

lemma NickR_congr (st st' : ClientState) (h : st'.nick = st.nick) :
    st'.NickR = st.NickR := by
  unfold ClientState.NickR
  rw [h]

lemma UserHost_congr (st st' : ClientState) (h1 : st'.nick = st.nick)
    (h2 : st'.username = st.username) (h3 : st'.hostname = st.hostname) :
    st'.UserHost = st.UserHost := by
  unfold ClientState.UserHost
  rw [NickR_congr _ _ h1, h2, h3]

lemma quit_destroy_UserHost (w : World) (c : ClientId) :
    (((destroy (quitStage w c) c).clients c).UserHost) = (w.clients c).UserHost := by
  rw [destroy_clients_self]
  apply UserHost_congr <;>
    · show _ = _
      rw [quitStage_clients_eta]

lemma Quit_hasQuit_self (w : World) (c : ClientId) (m : String)
    (hq : (w.clients c).hasQuit = false) :
    ((Quit w c m).clients c).hasQuit = true := by
  rw [Quit_eq2 _ _ _ hq, broadcast_hasQuit, destroy_clients_self]
  exact quitStage_hasQuit_self w c

lemma self_not_mem_quit_friends (w : World) (c : ClientId) :
    c ∉ (Friends (quitStage w c) c).filter (fun f => f ≠ c) := by
  intro hmem
  rcases List.mem_filter.mp hmem with ⟨-, hne⟩
  simp at hne

lemma Quit_replies_self (w : World) (c : ClientId) (m : String)
    (hq : (w.clients c).hasQuit = false) :
    ((Quit w c m).clients c).replies
      = (w.clients c).replies ++ [.rplError "connection closed", .eof] := by
  rw [Quit_eq2 _ _ _ hq,
    broadcast_clients_not_mem _ _ _ _ (self_not_mem_quit_friends w c),
    destroy_clients_self]
  show ((quitStage w c).clients c).replies = _
  exact quitStage_replies_self w c hq

lemma Quit_clients_ne_nonfriend (w : World) (c : ClientId) (m : String) (f : ClientId)
    (hq : (w.clients c).hasQuit = false) (hfc : f ≠ c) (hnf : f ∉ Friends w c) :
    (Quit w c m).clients f = w.clients f := by
  rw [Quit_eq2 _ _ _ hq,
    broadcast_clients_not_mem _ _ _ _
      (fun hmem => hnf (by simpa [quitStage_friends] using (List.mem_filter.mp hmem).1)),
    destroy_clients_ne _ _ _ hfc, quitStage_clients_ne _ _ _ hfc]

lemma Quit_replies_friend (w : World) (c : ClientId) (m : String) (f : ClientId)
    (hq : (w.clients c).hasQuit = false) (hf : f ∈ Friends w c) (hfc : f ≠ c)
    (hfq : (w.clients f).hasQuit = false) :
    ((Quit w c m).clients f).replies
      = (w.clients f).replies ++ [.rplQuit ((w.clients c).UserHost) m] := by
  rw [Quit_eq2 _ _ _ hq, quit_destroy_UserHost]
  have hmem : f ∈ (Friends (quitStage w c) c).filter (fun g => g ≠ c) := by
    rw [quitStage_friends]
    exact List.mem_filter.mpr ⟨hf, by simpa using hfc⟩
  have hnd : ((Friends (quitStage w c) c).filter (fun g => g ≠ c)).Nodup :=
    (nodup_Friends _ _).filter _
  have hbase : (destroy (quitStage w c) c).clients f = w.clients f := by
    rw [destroy_clients_ne _ _ _ hfc, quitStage_clients_ne _ _ _ hfc]
  rw [broadcast_replies_mem _ _ _ _ hnd hmem (by rw [hbase]; exact hfq), hbase]

lemma Quit_members (w : World) (c : ClientId) (m : String)
    (hq : (w.clients c).hasQuit = false) :
    (Quit w c m).members = w.members := by
  rw [Quit_eq2 _ _ _ hq, broadcast_members, destroy_members, quitStage_members]

lemma Quit_commands (w : World) (c : ClientId) (m : String)
    (hq : (w.clients c).hasQuit = false) :
    (Quit w c m).commands = w.commands := by
  rw [Quit_eq2 _ _ _ hq, broadcast_commands, destroy_commands, quitStage_commands]

lemma Quit_registry (w : World) (c : ClientId) (m : String)
    (hq : (w.clients c).hasQuit = false) :
    (Quit w c m).registry
      = w.registry.filter (fun e => e.1 ≠ ((w.clients c).NickR)) := by
  rw [Quit_eq2 _ _ _ hq, broadcast_registry, destroy_registry, quitStage_registry]
  have : ((quitStage w c).clients c).NickR = (w.clients c).NickR := by
    apply NickR_congr
    show _ = _
    rw [quitStage_clients_eta]
  rw [this]

lemma quitStage_loginTimer (w : World) (c : ClientId) (i : ClientId) :
    ((quitStage w c).clients i).loginTimer = (w.clients i).loginTimer := by
  rw [quitStage_clients_eta]

lemma quitStage_idleTimer (w : World) (c : ClientId) (i : ClientId) :
    ((quitStage w c).clients i).idleTimer = (w.clients i).idleTimer := by
  rw [quitStage_clients_eta]

lemma quitStage_quitTimer (w : World) (c : ClientId) (i : ClientId) :
    ((quitStage w c).clients i).quitTimer = (w.clients i).quitTimer := by
  rw [quitStage_clients_eta]

lemma quitStage_channels (w : World) (c : ClientId) (i : ClientId) :
    ((quitStage w c).clients i).channels = (w.clients i).channels := by
  rw [quitStage_clients_eta]

lemma quitStage_hasQuit_ne (w : World) (c i : ClientId) (h : i ≠ c) :
    ((quitStage w c).clients i).hasQuit = (w.clients i).hasQuit := by
  rw [quitStage_clients_ne _ _ _ h]

lemma Quit_events (w : World) (c : ClientId) (m : String)
    (hq : (w.clients c).hasQuit = false) :
    (Quit w c m).events
      = w.events
        ++ [Event.reply c (.rplError "connection closed"), Event.reply c .eof,
            Event.setHasQuit c]
        ++ destroyEvents (w.clients c).loginTimer (w.clients c).idleTimer
            (w.clients c).quitTimer (w.clients c).channels c
        ++ (((Friends w c).filter (fun f => f ≠ c)).filter
              (fun f => !(w.clients f).hasQuit)).map
            (fun f => Event.reply f (.rplQuit ((w.clients c).UserHost) m)) := by
  rw [Quit_eq2 _ _ _ hq, quit_destroy_UserHost, broadcast_events, destroy_events,
    quitStage_events _ _ hq, quitStage_friends, quitStage_loginTimer,
    quitStage_idleTimer, quitStage_quitTimer, quitStage_channels]
  have hfil :
      ((Friends w c).filter (fun f => f ≠ c)).filter
          (fun f => !((destroy (quitStage w c) c).clients f).hasQuit)
        = ((Friends w c).filter (fun f => f ≠ c)).filter
            (fun f => !(w.clients f).hasQuit) := by
    apply List.filter_congr
    intro f hf
    have hfc : f ≠ c := by
      have := (List.mem_filter.mp hf).2
      simpa using this
    rw [destroy_clients_ne _ _ _ hfc, quitStage_clients_ne _ _ _ hfc]
  rw [hfil]

/-! The claims. -/

/-- C1: the first `Quit(reason)` on a live client performs, in this order:
enqueue the connection-closed error line and then the end-of-stream sentinel
to the client's own reply queue, set `hasQuit`, compute the friends set with
the client itself removed, run `destroy()` (stop all timers, notify every
joined channel of the departure, remove the client from the registry), and
finally — iff the resulting friends set is non-empty — deliver one quit
notification to each remaining live friend; the client never receives its
own quit notification (its own queue gains exactly the error line and the
sentinel). -/
theorem quit_lifecycle_order (w : World) (c : ClientId) (m : String)
    (hq : (w.clients c).hasQuit = false) :
    ((Quit w c m).events
        = w.events
          ++ [Event.reply c (.rplError "connection closed"), Event.reply c .eof,
              Event.setHasQuit c]
          ++ destroyEvents (w.clients c).loginTimer (w.clients c).idleTimer
              (w.clients c).quitTimer (w.clients c).channels c
          ++ (((Friends w c).filter (fun f => f ≠ c)).filter
                (fun f => !(w.clients f).hasQuit)).map
              (fun f => Event.reply f (.rplQuit ((w.clients c).UserHost) m)))
    ∧ ((Quit w c m).clients c).hasQuit = true
    ∧ ((Quit w c m).clients c).replies
        = (w.clients c).replies ++ [.rplError "connection closed", .eof]
    ∧ c ∉ (Friends w c).filter (fun f => f ≠ c)
    ∧ (Quit w c m).registry
        = w.registry.filter (fun e => e.1 ≠ ((w.clients c).NickR))
    ∧ (∀ f ∈ (Friends w c).filter (fun f => f ≠ c), (w.clients f).hasQuit = false →
        ((Quit w c m).clients f).replies
          = (w.clients f).replies ++ [.rplQuit ((w.clients c).UserHost) m])
    ∧ ((Friends w c).filter (fun f => f ≠ c) = [] →
        ∀ i, ((Quit w c m).clients i).replies
          = if i = c then
              (w.clients c).replies ++ [.rplError "connection closed", .eof]
            else (w.clients i).replies) := by
  refine ⟨Quit_events w c m hq, Quit_hasQuit_self w c m hq,
    Quit_replies_self w c m hq, by simp, Quit_registry w c m hq, ?_, ?_⟩
  · intro f hf hfq
    exact Quit_replies_friend w c m f hq (List.mem_filter.mp hf).1
      (by simpa using (List.mem_filter.mp hf).2) hfq
  · intro hnil i
    by_cases hic : i = c
    · rw [hic]
      simp only [if_pos rfl]
      exact Quit_replies_self w c m hq
    · simp only [if_neg hic]
      have hnf : i ∉ Friends w c := by
        intro hmem
        have : i ∈ (Friends w c).filter (fun f => f ≠ c) :=
          List.mem_filter.mpr ⟨hmem, by simpa using hic⟩
        rw [hnil] at this
        cases this
      rw [Quit_clients_ne_nonfriend w c m i hq hic hnf]

/-- C1 witness: alice (client 0) quits in the concrete world `w0`. -/
theorem quit_lifecycle_order_witness :
    (w0.clients 0).hasQuit = false
    ∧ ((Quit w0 0 "bye").clients 0).hasQuit = true
    ∧ ((Quit w0 0 "bye").clients 0).replies
        = [.rplError "connection closed", .eof] :=
  ⟨rfl, (quit_lifecycle_order w0 0 "bye" rfl).2.1,
    (quit_lifecycle_order w0 0 "bye" rfl).2.2.1⟩

/-- C2: once `hasQuit` is true the client is terminal: `Reply` enqueues
nothing and changes nothing, `Quit` is a complete no-op, and `destroy`'s
side effects happen exactly once over the lifetime — a second `Quit` after a
first successful one changes nothing. -/
theorem hasQuit_terminal (w : World) (c : ClientId) (l : Line) (m m' : String) :
    ((w.clients c).hasQuit = true → Reply w c l = w ∧ Quit w c m = w)
    ∧ ((w.clients c).hasQuit = false → Quit (Quit w c m) c m' = Quit w c m) := by
  constructor
  · intro h
    exact ⟨Reply_noop w c l h, Quit_noop w c m h⟩
  · intro h
    exact Quit_noop _ _ _ (Quit_hasQuit_self w c m h)

/-- C2 witness: the already-quit client 4 absorbs `Reply` and `Quit`; a
double quit of alice (client 0) equals a single quit. -/
theorem hasQuit_terminal_witness :
    ((w0.clients 4).hasQuit = true ∧ Reply w0 4 .eof = w0 ∧ Quit w0 4 "x" = w0)
    ∧ ((w0.clients 0).hasQuit = false
        ∧ Quit (Quit w0 0 "a") 0 "b" = Quit w0 0 "a") :=
  ⟨⟨rfl, ((hasQuit_terminal w0 4 .eof "x" "y").1 rfl).1,
      ((hasQuit_terminal w0 4 .eof "x" "y").1 rfl).2⟩,
    ⟨rfl, (hasQuit_terminal w0 0 .eof "a" "b").2 rfl⟩⟩

/-- C3: `Friends()` is exactly the de-duplicated set of the client itself
plus every member of every channel in its channel set; with no channels it
is the singleton of the client, and with channels `[a, b]` it is the union
of the two member sets plus the client. -/
theorem friends_characterization (w : World) (c : ClientId) :
    ((Friends w c).Nodup
      ∧ ∀ x, x ∈ Friends w c
          ↔ x = c ∨ ∃ ch ∈ (w.clients c).channels, x ∈ w.members ch)
    ∧ ((w.clients c).channels = [] → Friends w c = [c])
    ∧ (∀ a b, (w.clients c).channels = [a, b] →
        ∀ x, x ∈ Friends w c ↔ (x = c ∨ x ∈ w.members a ∨ x ∈ w.members b)) := by
  refine ⟨⟨nodup_Friends w c, fun x => mem_Friends w c x⟩, ?_, ?_⟩
  · intro h
    unfold Friends
    rw [h]
    simp [ClientSet.add]
  · intro a b h x
    rw [mem_Friends, h]
    simp

/-- C3 witness: in `w0`, the channel-less client 3 has friends `[3]`, and
alice (channels `[0, 1]`) has carol (2) as a friend through channel 1. -/
theorem friends_characterization_witness :
    ((w0.clients 3).channels = [] ∧ Friends w0 3 = [3])
    ∧ ((w0.clients 0).channels = [0, 1]
        ∧ (2 ∈ Friends w0 0 ↔ (2 = 0 ∨ 2 ∈ w0.members 0 ∨ 2 ∈ w0.members 1))) :=
  ⟨⟨rfl, (friends_characterization w0 3).2.1 rfl⟩,
    ⟨rfl, (friends_characterization w0 0).2.2 0 1 rfl 2⟩⟩

/-! Lemmas about `ChangeNickname`. -/

lemma ChangeNickname_eq (w : World) (c : ClientId) (n : String) :
    ChangeNickname w c n
      = broadcast (cnStage w c n) (Friends (cnStage w c n) c)
          (.rplNick ((w.clients c).UserHost) n) := rfl

lemma cnStage_clients_self (w : World) (c : ClientId) (n : String) :
    (cnStage w c n).clients c = { w.clients c with nick := n } := by
  unfold cnStage
  rw [registryAdd_clients]
  simp only [World.log_clients, World.upd_clients_self, registryRemove_clients]

lemma cnStage_clients_ne (w : World) (c i : ClientId) (n : String) (h : i ≠ c) :
    (cnStage w c n).clients i = w.clients i := by
  unfold cnStage
  rw [registryAdd_clients]
  simp only [World.log_clients]
  rw [World.upd_clients_ne _ _ _ _ h, registryRemove_clients]

lemma cnStage_members (w : World) (c : ClientId) (n : String) :
    (cnStage w c n).members = w.members := rfl

lemma cnStage_hasQuit (w : World) (c i : ClientId) (n : String) :
    ((cnStage w c n).clients i).hasQuit = (w.clients i).hasQuit := by
  by_cases h : i = c
  · rw [h, cnStage_clients_self]
  · rw [cnStage_clients_ne _ _ _ _ h]

lemma cnStage_registry (w : World) (c : ClientId) (n : String) :
    (cnStage w c n).registry
      = w.registry.filter (fun e => e.1 ≠ ((w.clients c).NickR))
        ++ [((if n ≠ "" then n else "*"), c)] := by
  unfold cnStage
  rw [registryAdd_registry]
  simp only [World.log_clients, World.log_registry, World.upd_registry,
    World.upd_clients_self, registryRemove_clients, registryRemove_registry]
  rfl

lemma cnStage_events (w : World) (c : ClientId) (n : String) :
    (cnStage w c n).events
      = w.events ++ [Event.regRemove c, Event.setNick c n, Event.regAdd c] := by
  unfold cnStage
  rw [registryAdd_events]
  simp only [World.log_events, World.upd_events, registryRemove_events]
  simp

lemma cnStage_friends (w : World) (c : ClientId) (n : String) :
    Friends (cnStage w c n) c = Friends w c := by
  apply Friends_congr
  · rw [cnStage_clients_self]
  · rfl

/-- C4: `ChangeNickname(n)` renders the nick-change notification from the
old identity before any mutation, then mutates in the order: remove the old
registry key, assign the new nickname, insert the new registry key (so keys
stay duplicate-free when the new key is fresh), and finally delivers the
pre-rendered notification to every live member of `Friends()`, the client
itself included. -/
theorem changeNickname_spec (w : World) (c : ClientId) (n : String) :
    ((ChangeNickname w c n).events
        = w.events ++ [Event.regRemove c, Event.setNick c n, Event.regAdd c]
          ++ ((Friends w c).filter (fun f => !(w.clients f).hasQuit)).map
              (fun f => Event.reply f (.rplNick ((w.clients c).UserHost) n)))
    ∧ (ChangeNickname w c n).registry
        = w.registry.filter (fun e => e.1 ≠ ((w.clients c).NickR))
          ++ [((if n ≠ "" then n else "*"), c)]
    ∧ ((ChangeNickname w c n).clients c).nick = n
    ∧ c ∈ Friends w c
    ∧ (∀ f ∈ Friends w c, (w.clients f).hasQuit = false →
        ((ChangeNickname w c n).clients f).replies
          = (w.clients f).replies ++ [.rplNick ((w.clients c).UserHost) n])
    ∧ (((w.registry.filter (fun e => e.1 ≠ ((w.clients c).NickR))).map
          Prod.fst).Nodup →
        (if n ≠ "" then n else "*")
            ∉ (w.registry.filter (fun e => e.1 ≠ ((w.clients c).NickR))).map
                Prod.fst →
        ((ChangeNickname w c n).registry.map Prod.fst).Nodup) := by
  have hreg : (ChangeNickname w c n).registry
      = w.registry.filter (fun e => e.1 ≠ ((w.clients c).NickR))
        ++ [((if n ≠ "" then n else "*"), c)] := by
    rw [ChangeNickname_eq, broadcast_registry, cnStage_registry]
  refine ⟨?_, hreg, ?_, self_mem_Friends w c, ?_, ?_⟩
  · rw [ChangeNickname_eq, broadcast_events, cnStage_events, cnStage_friends]
    have hfil : (Friends w c).filter (fun f => !((cnStage w c n).clients f).hasQuit)
        = (Friends w c).filter (fun f => !(w.clients f).hasQuit) := by
      apply List.filter_congr
      intro f _
      rw [cnStage_hasQuit]
    rw [hfil]
  · rw [ChangeNickname_eq, broadcast_clients, cnStage_clients_self]
  · intro f hf hfq
    rw [ChangeNickname_eq,
      broadcast_replies_mem _ _ _ _ (by rw [cnStage_friends]; exact nodup_Friends w c)
        (by rw [cnStage_friends]; exact hf) (by rw [cnStage_hasQuit]; exact hfq)]
    by_cases hfc : f = c
    · rw [hfc, cnStage_clients_self]
    · rw [cnStage_clients_ne _ _ _ _ hfc]
  · intro hnd hnotin
    rw [hreg]
    simp only [List.map_append, List.map_cons, List.map_nil]
    rw [List.nodup_append]
    refine ⟨hnd, List.nodup_singleton _, ?_⟩
    intro k hk
    simp only [List.mem_singleton]
    intro hkeq
    exact hnotin (hkeq ▸ hk)

/-- C4 witness: alice (client 0, nick `alice`) renames to `alicia` in `w0`;
carol (2) receives the notification rendered from the old identity. -/
theorem changeNickname_spec_witness :
    2 ∈ Friends w0 0 ∧ (w0.clients 2).hasQuit = false
    ∧ ((ChangeNickname w0 0 "alicia").clients 2).replies
        = [.rplNick "alice!ua@ha" "alicia"]
    ∧ ((ChangeNickname w0 0 "alicia").clients 0).nick = "alicia" := by
  refine ⟨by decide, rfl, ?_, (changeNickname_spec w0 0 "alicia").2.2.1⟩
  have h := (changeNickname_spec w0 0 "alicia").2.2.2.2.1 2 (by decide) rfl
  simpa using h

/-! Lemmas about the intake queue and the read pump. -/

lemma pushCommand_commands (w : World) (cmd : Command) :
    (pushCommand w cmd).commands = w.commands ++ [cmd] := rfl

lemma pushCommand_clients (w : World) (cmd : Command) :
    (pushCommand w cmd).clients = w.clients := rfl

lemma pushCommand_registry (w : World) (cmd : Command) :
    (pushCommand w cmd).registry = w.registry := rfl

lemma pushCommand_events (w : World) (cmd : Command) :
    (pushCommand w cmd).events = w.events ++ [Event.enqueueCmd cmd] := rfl

lemma connectionTimeout_eq (w : World) (c : ClientId) :
    connectionTimeout w c
      = pushCommand w { kind := .quitCmd "connection timeout", client := some c } := rfl

lemma connectionClosed_eq (w : World) (c : ClientId) :
    connectionClosed w c
      = pushCommand w { kind := .quitCmd "connection closed", client := some c } := rfl

lemma readCommands_eof (parse : String → Except ParseError CmdKind) (w : World)
    (c : ClientId) (rest : List RInput) :
    readCommands parse w c (.line EOF :: rest) = connectionClosed w c := by
  unfold readCommands
  simp

/-- C5: a firing login or quit timer enqueues a synthetic quit command
tagged with this client and reason `connection timeout` to the Command
Intake Queue without any `Quit()` effect (no reply-queue change, no
`hasQuit` change, no registry change); and the read pump, on the
end-marker, enqueues exactly one synthetic quit with reason `connection
closed` through the same queue and exits for good (the remaining input is
never serviced). -/
theorem timer_eof_quit_synthesis (parse : String → Except ParseError CmdKind)
    (w : World) (c : ClientId) (rest : List RInput) :
    ((w.clients c).loginTimer = some true →
        (fireLoginTimer w c).commands
            = w.commands ++ [Command.mk (.quitCmd "connection timeout") (some c)]
        ∧ (∀ i, ((fireLoginTimer w c).clients i).replies = (w.clients i).replies)
        ∧ (∀ i, ((fireLoginTimer w c).clients i).hasQuit = (w.clients i).hasQuit)
        ∧ (fireLoginTimer w c).registry = w.registry)
    ∧ ((w.clients c).quitTimer = some true →
        (fireQuitTimer w c).commands
            = w.commands ++ [Command.mk (.quitCmd "connection timeout") (some c)]
        ∧ (∀ i, ((fireQuitTimer w c).clients i).replies = (w.clients i).replies)
        ∧ (∀ i, ((fireQuitTimer w c).clients i).hasQuit = (w.clients i).hasQuit)
        ∧ (fireQuitTimer w c).registry = w.registry)
    ∧ (readCommands parse w c (.line EOF :: rest) = connectionClosed w c
        ∧ (connectionClosed w c).commands
            = w.commands ++ [Command.mk (.quitCmd "connection closed") (some c)]
        ∧ (∀ i, (connectionClosed w c).clients i = w.clients i)) := by
  refine ⟨?_, ?_, readCommands_eof parse w c rest, rfl, fun i => rfl⟩
  · intro h
    unfold fireLoginTimer
    rw [if_pos h, connectionTimeout_eq]
    refine ⟨by rw [pushCommand_commands]; rfl, ?_, ?_,
      by rw [pushCommand_registry, World.upd_registry]⟩
    · intro i
      rw [pushCommand_clients]
      by_cases hic : i = c
      · rw [hic, World.upd_clients_self]
      · rw [World.upd_clients_ne _ _ _ _ hic]
    · intro i
      rw [pushCommand_clients]
      by_cases hic : i = c
      · rw [hic, World.upd_clients_self]
      · rw [World.upd_clients_ne _ _ _ _ hic]
  · intro h
    unfold fireQuitTimer
    rw [if_pos h, connectionTimeout_eq]
    refine ⟨by rw [pushCommand_commands]; rfl, ?_, ?_,
      by rw [pushCommand_registry, World.upd_registry]⟩
    · intro i
      rw [pushCommand_clients]
      by_cases hic : i = c
      · rw [hic, World.upd_clients_self]
      · rw [World.upd_clients_ne _ _ _ _ hic]
    · intro i
      rw [pushCommand_clients]
      by_cases hic : i = c
      · rw [hic, World.upd_clients_self]
      · rw [World.upd_clients_ne _ _ _ _ hic]

/-- C5 witness: the fresh client 3 of `w0`, with its login timer armed,
times out; and its read pump receives the end-marker. -/
theorem timer_eof_quit_synthesis_witness :
    (w0.clients 3).loginTimer = some true
    ∧ (fireLoginTimer w0 3).commands
        = [Command.mk (.quitCmd "connection timeout") (some 3)]
    ∧ readCommands (fun _ => .error .otherErr) w0 3 [.line EOF]
        = connectionClosed w0 3 :=
  ⟨rfl, ((timer_eof_quit_synthesis (fun _ => .error .otherErr) w0 3 []).1 rfl).1,
    (timer_eof_quit_synthesis (fun _ => .error .otherErr) w0 3 []).2.2.1⟩

lemma readCommands_line_step (parse : String → Except ParseError CmdKind)
    (w : World) (c : ClientId) (l : String) (rest : List RInput) (h : l ≠ EOF) :
    readCommands parse w c (.line l :: rest)
      = match parse l with
        | .ok k => readCommands parse (pushCommand w (Command.mk k (some c))) c rest
        | .error .notEnoughArgs =>
            readCommands parse (ErrNeedMoreParams w c (splitVerb l)) c rest
        | .error .otherErr => readCommands parse w c rest := by
  conv_lhs => unfold readCommands
  rw [if_neg h]

/-- C6: per-line behaviour of the read pump: a successful parse tags the
command with this client and enqueues it to the Command Intake Queue and the
loop continues; a `NotEnoughArgs` failure sends the client exactly one
protocol error reply naming the verb before the first space of the raw line
and the loop continues; any other failure produces no reply and no enqueue
and the loop continues. -/
theorem readCommands_line_handling (parse : String → Except ParseError CmdKind)
    (w : World) (c : ClientId) (l : String) (rest : List RInput) (h : l ≠ EOF) :
    (∀ k, parse l = .ok k →
        readCommands parse w c (.line l :: rest)
            = readCommands parse (pushCommand w (Command.mk k (some c))) c rest
          ∧ (pushCommand w (Command.mk k (some c))).commands
            = w.commands ++ [Command.mk k (some c)])
    ∧ (parse l = .error .notEnoughArgs →
        readCommands parse w c (.line l :: rest)
            = readCommands parse (ErrNeedMoreParams w c (splitVerb l)) c rest
          ∧ ((w.clients c).hasQuit = false →
              ((ErrNeedMoreParams w c (splitVerb l)).clients c).replies
                = (w.clients c).replies ++ [.needMoreParams (splitVerb l)]))
    ∧ (parse l = .error .otherErr →
        readCommands parse w c (.line l :: rest) = readCommands parse w c rest) := by
  refine ⟨?_, ?_, ?_⟩
  · intro k hk
    constructor
    · rw [readCommands_line_step parse w c l rest h, hk]
    · exact pushCommand_commands w _
  · intro hk
    constructor
    · rw [readCommands_line_step parse w c l rest h, hk]
    · intro hq
      exact Reply_replies_self w c _ hq
  · intro hk
    rw [readCommands_line_step parse w c l rest h, hk]

/-- C6 witness: concrete parses of the three kinds on the fresh client 3
of `w0` (the raw line `JOIN #a` has verb `JOIN`). -/
theorem readCommands_line_handling_witness :
    ("JOIN #a" ≠ EOF)
    ∧ (readCommands (fun _ => .ok (.otherCmd 7)) w0 3 [.line "JOIN #a"]
        = readCommands (fun _ => .ok (.otherCmd 7))
            (pushCommand w0 (Command.mk (.otherCmd 7) (some 3))) 3 [])
    ∧ (readCommands (fun _ => .error .notEnoughArgs) w0 3 [.line "JOIN #a"]
        = readCommands (fun _ => .error .notEnoughArgs)
            (ErrNeedMoreParams w0 3 "JOIN") 3 [])
    ∧ ((ErrNeedMoreParams w0 3 (splitVerb "JOIN #a")).clients 3).replies
        = [.needMoreParams "JOIN"]
    ∧ (readCommands (fun _ => .error .otherErr) w0 3 [.line "JOIN #a"]
        = readCommands (fun _ => .error .otherErr) w0 3 []) := by
  have hne : "JOIN #a" ≠ EOF := by decide
  have hverb : splitVerb "JOIN #a" = "JOIN" := by decide
  refine ⟨hne, ?_, ?_, ?_, ?_⟩
  · exact ((readCommands_line_handling (fun _ => .ok (.otherCmd 7)) w0 3 "JOIN #a" []
      hne).1 (.otherCmd 7) rfl).1
  · have h := ((readCommands_line_handling (fun _ => .error .notEnoughArgs) w0 3
      "JOIN #a" [] hne).2.1 rfl).1
    rwa [hverb] at h
  · have h := ((readCommands_line_handling (fun _ => .error .notEnoughArgs) w0 3
      "JOIN #a" [] hne).2.1 rfl).2 rfl
    rw [hverb] at h
    rw [hverb]
    simpa [w0, stFresh] using h
  · exact (readCommands_line_handling (fun _ => .error .otherErr) w0 3 "JOIN #a" []
      hne).2.2 rfl

/-! Lemmas about `Touch`, `Idle` and the idle-timer firing. -/

lemma Reply_clients_self (w : World) (c : ClientId) (l : Line)
    (hq : (w.clients c).hasQuit = false) :
    (Reply w c l).clients c
      = { w.clients c with replies := (w.clients c).replies ++ [l] } := by
  unfold Reply
  simp [hq]

lemma Touch_clients_self (w : World) (c : ClientId) :
    (Touch w c).clients c
      = { w.clients c with
          idleTimer := some true,
          quitTimer := stopTimer (w.clients c).quitTimer } := by
  unfold Touch
  rcases h : (w.clients c).quitTimer with _ | b
  · simp only [World.upd_clients_self, h, stopTimer]
  · simp only [World.log_clients, World.upd_clients_self, h, stopTimer]

lemma Touch_clients_ne (w : World) (c i : ClientId) (h : i ≠ c) :
    (Touch w c).clients i = w.clients i := by
  unfold Touch
  rcases (w.clients c).quitTimer with _ | b
  · simp [World.upd_clients_ne _ _ _ _ h]
  · rw [World.upd_clients_ne _ _ _ _ h]
    simp only [World.log_clients]
    rw [World.upd_clients_ne _ _ _ _ h]

lemma Idle_clients_self (w : World) (c : ClientId)
    (hq : (w.clients c).hasQuit = false) :
    (Idle w c).clients c
      = { w.clients c with
          quitTimer := some true,
          replies := (w.clients c).replies ++ [.rplPing ((w.clients c).UserHost)] } := by
  unfold Idle
  simp only [World.upd_clients_self]
  rw [Reply_clients_self _ _ _ hq]

lemma stopTimer_ne_armed (t : Option Bool) : stopTimer t ≠ some true := by
  rcases t with _ | b <;> simp [stopTimer]

/-- C7: the inactivity state machine keeps at most one of the idle and quit
timers armed: `Touch()` cancels any armed quit timer and (re)arms the idle
timer; the idle timer firing sends exactly one ping reply, arms (or resets)
the quit timer and leaves the idle timer fired-and-disarmed. -/
theorem inactivity_timer_state_machine (w : World) (c : ClientId) :
    (((Touch w c).clients c).idleTimer = some true
      ∧ ((Touch w c).clients c).quitTimer = stopTimer (w.clients c).quitTimer
      ∧ ((Touch w c).clients c).quitTimer ≠ some true)
    ∧ ((w.clients c).idleTimer = some true → (w.clients c).hasQuit = false →
        ((fireIdleTimer w c).clients c).replies
            = (w.clients c).replies ++ [.rplPing ((w.clients c).UserHost)]
          ∧ ((fireIdleTimer w c).clients c).quitTimer = some true
          ∧ ((fireIdleTimer w c).clients c).idleTimer = some false
          ∧ ¬(((fireIdleTimer w c).clients c).idleTimer = some true
                ∧ ((fireIdleTimer w c).clients c).quitTimer = some true)) := by
  constructor
  · rw [Touch_clients_self]
    exact ⟨rfl, rfl, stopTimer_ne_armed _⟩
  · intro hidle hq
    unfold fireIdleTimer
    rw [if_pos hidle]
    have hq' : (((w.upd c (fun st => { st with idleTimer := some false })).clients
        c)).hasQuit = false := by
      rw [World.upd_clients_self]
      exact hq
    rw [Idle_clients_self _ _ hq']
    have huh : ({ w.clients c with idleTimer := some false } :
        ClientState).UserHost = (w.clients c).UserHost := by
      apply UserHost_congr <;> rfl
    refine ⟨?_, rfl, ?_, ?_⟩
    · simp only [World.upd_clients_self]
      rw [huh]
    · simp only [World.upd_clients_self]
    · simp only [World.upd_clients_self]
      rintro ⟨h1, -⟩
      cases h1

/-- C7 witness: alice (client 0, idle timer armed, quit timer nil) in `w0`
is touched and her idle timer fires. -/
theorem inactivity_timer_state_machine_witness :
    (((Touch w0 0).clients 0).idleTimer = some true
      ∧ ((Touch w0 0).clients 0).quitTimer ≠ some true)
    ∧ ((w0.clients 0).idleTimer = some true ∧ (w0.clients 0).hasQuit = false
      ∧ ((fireIdleTimer w0 0).clients 0).quitTimer = some true
      ∧ ((fireIdleTimer w0 0).clients 0).replies = [.rplPing "alice!ua@ha"]) := by
  refine ⟨⟨(inactivity_timer_state_machine w0 0).1.1,
    (inactivity_timer_state_machine w0 0).1.2.2⟩,
    rfl, rfl, ((inactivity_timer_state_machine w0 0).2 rfl rfl).2.1, ?_⟩
  have h := ((inactivity_timer_state_machine w0 0).2 rfl rfl).1
  simpa [w0, stAlice, ClientState.UserHost, ClientState.NickR] using h

/-! Lemmas about the write pump. -/

lemma writeReplies_characterization (writeOk : Nat → Bool) (n : Nat) (q : List Line) :
    writeReplies writeOk n q
      = ((List.enumFrom n q).takeWhile (pumpKeeps writeOk)).map
          (fun x => WEvent.wrote x.2)
        ++ (if (List.enumFrom n q).dropWhile (pumpKeeps writeOk) = [] then []
            else [WEvent.closed]) := by
  induction q generalizing n with
  | nil => simp [writeReplies]
  | cons l rest ih =>
      show writeReplies writeOk n (l :: rest) = _
      by_cases hl : l = Line.eof
      · unfold writeReplies
        rw [if_pos hl]
        have hk : pumpKeeps writeOk (n, l) = false := by simp [pumpKeeps, hl]
        simp [List.takeWhile, List.dropWhile, hk]
      · by_cases hw : writeOk n
        · unfold writeReplies
          rw [if_neg hl, if_pos hw]
          have hk : pumpKeeps writeOk (n, l) = true := by simp [pumpKeeps, hl, hw]
          simp only [List.enumFrom, List.takeWhile, List.dropWhile, hk]
          rw [ih (n + 1)]
          simp
        · unfold writeReplies
          rw [if_neg hl, if_neg hw]
          have hk : pumpKeeps writeOk (n, l) = false := by simp [pumpKeeps, hl, hw]
          simp [List.takeWhile, List.dropWhile, hk]

lemma writeReplies_written (writeOk : Nat → Bool) (n : Nat) (q : List Line) :
    ∃ k, writtenOf (writeReplies writeOk n q) = q.take k := by
  induction q generalizing n with
  | nil => exact ⟨0, rfl⟩
  | cons l rest ih =>
      by_cases hl : l = Line.eof
      · refine ⟨0, ?_⟩
        unfold writeReplies
        rw [if_pos hl]
        rfl
      · by_cases hw : writeOk n
        · obtain ⟨k, hk⟩ := ih (n + 1)
          refine ⟨k + 1, ?_⟩
          unfold writeReplies
          rw [if_neg hl, if_pos hw]
          show l :: writtenOf (writeReplies writeOk (n + 1) rest) = _
          rw [hk]
          rfl
        · refine ⟨0, ?_⟩
          unfold writeReplies
          rw [if_neg hl, if_neg hw]
          rfl

lemma writeReplies_count_closed (writeOk : Nat → Bool) (n : Nat) (q : List Line) :
    (writeReplies writeOk n q).count WEvent.closed ≤ 1 := by
  induction q generalizing n with
  | nil => simp [writeReplies]
  | cons l rest ih =>
      unfold writeReplies
      by_cases hl : l = Line.eof
      · rw [if_pos hl]
        simp
      · by_cases hw : writeOk n
        · rw [if_neg hl, if_pos hw]
          simpa [List.count_cons] using ih (n + 1)
        · rw [if_neg hl, if_neg hw]
          simp

lemma writeReplies_closed_last (writeOk : Nat → Bool) (n : Nat) (q : List Line) :
    WEvent.closed ∈ writeReplies writeOk n q →
      (writeReplies writeOk n q).getLast? = some WEvent.closed := by
  induction q generalizing n with
  | nil => intro h; cases h
  | cons l rest ih =>
      unfold writeReplies
      by_cases hl : l = Line.eof
      · rw [if_pos hl]
        intro
        rfl
      · by_cases hw : writeOk n
        · rw [if_neg hl, if_pos hw]
          intro hmem
          have hmem' : WEvent.closed ∈ writeReplies writeOk (n + 1) rest := by
            rcases List.mem_cons.mp hmem with he | hm
            · cases he
            · exact hm
          have hlast := ih (n + 1) hmem'
          rcases hrep : writeReplies writeOk (n + 1) rest with _ | ⟨e, es⟩
          · rw [hrep] at hmem'
            cases hmem'
          · rw [hrep] at hlast
            rw [List.getLast?_cons_cons]
            exact hlast
        · rw [if_neg hl, if_neg hw]
          intro
          rfl

lemma writeReplies_eof_closed (writeOk : Nat → Bool) (n : Nat) (q : List Line) :
    Line.eof ∈ q → WEvent.closed ∈ writeReplies writeOk n q := by
  induction q generalizing n with
  | nil => intro h; cases h
  | cons l rest ih =>
      intro hmem
      unfold writeReplies
      by_cases hl : l = Line.eof
      · rw [if_pos hl]
        simp
      · have hrest : Line.eof ∈ rest := by
          rcases List.mem_cons.mp hmem with he | hm
          · exact absurd he.symm hl
          · exact hm
        by_cases hw : writeOk n
        · rw [if_neg hl, if_pos hw]
          exact List.mem_cons_of_mem _ (ih (n + 1) hrest)
        · rw [if_neg hl, if_neg hw]
          simp

lemma writeReplies_closed_iff (writeOk : Nat → Bool) (n : Nat) (q : List Line) :
    WEvent.closed ∈ writeReplies writeOk n q
      ↔ (List.enumFrom n q).dropWhile (pumpKeeps writeOk) ≠ [] := by
  rw [writeReplies_characterization]
  by_cases hd : (List.enumFrom n q).dropWhile (pumpKeeps writeOk) = []
  · simp [hd]
  · simp [hd]

/-- C8: the write pump writes the reply queue's items in exactly the order
enqueued (the written lines are an initial prefix of the queue, cut at the
first sentinel or failed write), terminates exactly when it meets the
end-marker sentinel or a write fails, and on every termination path closes
the socket exactly once, as its last act. -/
theorem writeReplies_fifo_close (writeOk : Nat → Bool) (n : Nat) (q : List Line) :
    (writeReplies writeOk n q
        = ((List.enumFrom n q).takeWhile (pumpKeeps writeOk)).map
            (fun x => WEvent.wrote x.2)
          ++ (if (List.enumFrom n q).dropWhile (pumpKeeps writeOk) = [] then []
              else [WEvent.closed]))
    ∧ (∃ k, writtenOf (writeReplies writeOk n q) = q.take k)
    ∧ (writeReplies writeOk n q).count WEvent.closed ≤ 1
    ∧ (WEvent.closed ∈ writeReplies writeOk n q →
        (writeReplies writeOk n q).getLast? = some WEvent.closed)
    ∧ (Line.eof ∈ q → WEvent.closed ∈ writeReplies writeOk n q)
    ∧ (WEvent.closed ∈ writeReplies writeOk n q
        ↔ (List.enumFrom n q).dropWhile (pumpKeeps writeOk) ≠ []) :=
  ⟨writeReplies_characterization writeOk n q, writeReplies_written writeOk n q,
    writeReplies_count_closed writeOk n q, writeReplies_closed_last writeOk n q,
    writeReplies_eof_closed writeOk n q, writeReplies_closed_iff writeOk n q⟩

/-- C8 witness: a queue holding one ping and then the sentinel, written over
a healthy socket: the pump writes the ping, then closes once. -/
theorem writeReplies_fifo_close_witness :
    writeReplies (fun _ => true) 0 [.rplPing "x", .eof]
        = [WEvent.wrote (.rplPing "x"), WEvent.closed]
    ∧ WEvent.closed ∈ writeReplies (fun _ => true) 0 [.rplPing "x", .eof]
    ∧ (writeReplies (fun _ => true) 0 [.rplPing "x", .eof]).getLast?
        = some WEvent.closed
    ∧ Line.eof ∈ ([.rplPing "x", .eof] : List Line)
    ∧ WEvent.closed ∈ writeReplies (fun _ => true) 0 [.rplPing "x", .eof] :=
  ⟨by decide, by decide,
    (writeReplies_fifo_close (fun _ => true) 0 [.rplPing "x", .eof]).2.2.2.1
      (by decide),
    by decide,
    (writeReplies_fifo_close (fun _ => true) 0 [.rplPing "x", .eof]).2.2.2.2.1
      (by decide)⟩

/-! Lemmas about `NewClient` and `Register`. -/

lemma NewClient_clients_self (w : World) (c : ClientId) (p : Phase) :
    (NewClient w c p).clients c
      = { nick := "", username := "", hostname := "", hasQuit := false,
          phase := p, channels := [], loginTimer := some true,
          idleTimer := none, quitTimer := none, replies := [] } := by
  simp [NewClient]

lemma NewClient_commands (w : World) (c : ClientId) (p : Phase) :
    (NewClient w c p).commands = w.commands := rfl

lemma NewClient_events (w : World) (c : ClientId) (p : Phase) :
    (NewClient w c p).events = w.events := rfl

lemma Register_clients_self (w : World) (c : ClientId) :
    (Register w c).clients c
      = { w.clients c with
          phase := Phase.Normal,
          loginTimer := stopTimer (w.clients c).loginTimer,
          idleTimer := some true,
          quitTimer := stopTimer (w.clients c).quitTimer } := by
  unfold Register
  rcases h : (w.clients c).loginTimer with _ | b
  all_goals
    simp only [World.upd_clients_self, h]
    rw [Touch_clients_self]
    simp only [World.log_clients, World.upd_clients_self, h, stopTimer]

/-- C9: `Register()` moves the phase to Normal, stops the login timer — so a
later login-timer fire is a no-op and no login-timeout quit is ever
enqueued afterward — and runs `Touch()`, arming the idle timer; while on a
freshly constructed client the login timer is armed and its firing enqueues
the synthetic timeout quit. -/
theorem register_login_timer (w : World) (c : ClientId) (p : Phase) (b : Bool) :
    ((NewClient w c p).clients c).loginTimer = some true
    ∧ (fireLoginTimer (NewClient w c p) c).commands
        = (NewClient w c p).commands
          ++ [Command.mk (.quitCmd "connection timeout") (some c)]
    ∧ ((w.clients c).loginTimer = some b →
        ((Register w c).clients c).phase = Phase.Normal
        ∧ ((Register w c).clients c).loginTimer = some false
        ∧ ((Register w c).clients c).idleTimer = some true
        ∧ ((Register w c).clients c).quitTimer ≠ some true
        ∧ fireLoginTimer (Register w c) c = Register w c) := by
  have harmed : ((NewClient w c p).clients c).loginTimer = some true := by
    rw [NewClient_clients_self]
  refine ⟨harmed, ?_, ?_⟩
  · unfold fireLoginTimer
    rw [if_pos harmed, connectionTimeout_eq, pushCommand_commands]
    rfl
  · intro hb
    have hreg := Register_clients_self w c
    rw [hb] at hreg
    refine ⟨by rw [hreg], by rw [hreg]; rfl, by rw [hreg], ?_, ?_⟩
    · rw [hreg]
      intro hcon
      exact stopTimer_ne_armed _ hcon
    · unfold fireLoginTimer
      rw [if_neg ?hne]
      case hne =>
        rw [hreg]
        intro hcon
        cases hcon

/-- C9 witness: the fresh client 3 of `w0` registers; its login timer ends
stopped and a subsequent login-timer fire changes nothing. -/
theorem register_login_timer_witness :
    (w0.clients 3).loginTimer = some true
    ∧ ((Register w0 3).clients 3).phase = Phase.Normal
    ∧ ((Register w0 3).clients 3).loginTimer = some false
    ∧ fireLoginTimer (Register w0 3) 3 = Register w0 3 :=
  ⟨rfl, ((register_login_timer w0 3 .Registering true).2.2 rfl).1,
    ((register_login_timer w0 3 .Registering true).2.2 rfl).2.1,
    ((register_login_timer w0 3 .Registering true).2.2 rfl).2.2.2.2⟩

/-- C10: `Quit` — hence `destroy` — is nil-safe even on a never-registered
client: construction unconditionally arms the login timer, so `destroy`'s
unguarded `loginTimer.Stop()` never dereferences nil, and the idle and quit
timers are stopped only under their nil guards; so neither a bare `destroy`
nor a full `Quit` of a freshly constructed client ever performs a nil-timer
access. -/
theorem destroy_nil_safety (w : World) (c : ClientId) (p : Phase) (m : String) :
    ((NewClient w c p).clients c).loginTimer.isSome = true
    ∧ ((w.clients c).loginTimer.isSome = true →
        ∀ i t, Event.nilDeref i t ∈ (destroy w c).events
          → Event.nilDeref i t ∈ w.events)
    ∧ (∀ i t, Event.nilDeref i t ∈ (Quit (NewClient w c p) c m).events
        → Event.nilDeref i t ∈ w.events) := by
  refine ⟨by rw [NewClient_clients_self]; rfl, ?_, ?_⟩
  · intro hl i t hmem
    rw [destroy_events] at hmem
    rcases List.mem_append.mp hmem with hin | hin
    · exact hin
    · exfalso
      rcases hlogin : (w.clients c).loginTimer with _ | lb
      · rw [hlogin] at hl
        cases hl
      · rcases hidle : (w.clients c).idleTimer with _ | ib <;>
          rcases hquit : (w.clients c).quitTimer with _ | qb <;>
          simp [destroyEvents, hlogin, hidle, hquit] at hin
  · intro i t hmem
    have hq : ((NewClient w c p).clients c).hasQuit = false := by
      rw [NewClient_clients_self]
    rw [Quit_events _ _ _ hq, NewClient_events, NewClient_clients_self] at hmem
    simpa [destroyEvents] using hmem

/-- C10 witness: destroying the fresh (never-registered) client 3 of `w0`
performs no nil-timer access, and a fresh client's login timer is
non-nil. -/
theorem destroy_nil_safety_witness :
    (w0.clients 3).loginTimer.isSome = true
    ∧ ((NewClient w0 9 Phase.Registering).clients 9).loginTimer.isSome = true
    ∧ Event.nilDeref 3 TimerId.login ∉ (destroy w0 3).events := by
  refine ⟨rfl, (destroy_nil_safety w0 9 Phase.Registering "m").1, ?_⟩
  intro hmem
  have h2 := (destroy_nil_safety w0 3 Phase.Registering "m").2.1 rfl 3
    TimerId.login hmem
  simp [w0] at h2
